import Mathlib

/-!
Verification of the feature-graph module of cesium
(`src/cesium/features/graphs.py`): the static dask feature graph,
its category registry, and the evaluation engine that the module
delegates to.  The graph definition, category lists and
`generate_dask_graph` are translated directly from the source; the
evaluator (dask's scheduler) and the selector-expansion operation are
not part of the source file and are modelled from the specification.
-/

set_option maxRecDepth 100000
set_option maxHeartbeats 2000000

/-- A runtime value flowing through the graph: a rational scalar, a
native integer, or an array of rationals (time/value/error series). -/
inductive Value where
  | num (q : ℚ)
  | int (n : ℤ)
  | arr (l : List ℚ)
  deriving DecidableEq, Repr

/-- An argument of a graph task: either a string reference to another
key of the graph (dask resolves such strings by key lookup) or a
literal integer constant, exactly the two argument shapes occurring in
`dask_feature_graph`. -/
inductive Arg where
  | ref (k : String)
  | lit (n : ℤ)
  deriving DecidableEq, Repr

/-- A graph entry: either raw data bound to a key (the raw inputs
added by `generate_dask_graph`) or a task `(operation, args...)` as in
the source's dictionary-of-tuples representation. -/
inductive Entry where
  | data (v : Value)
  | task (op : String) (args : List Arg)
  deriving DecidableEq, Repr

/-- A dask-style graph: an ordered association list from keys to
entries, mirroring the Python dict (insertion ordered, unique keys). -/
abbrev Graph := List (String × Entry)

/-- The terminal state of one node during a single evaluation:
finished with a value, failed in its own operation, or failed because
a dependency failed (wrapping the originating error). -/
inductive NodeResult where
  | done (v : Value)
  | failed (e : String)
  | propagated (e : String)
  deriving DecidableEq, Repr

/-- The semantics of the opaque operations: an operation name applied
to resolved positional argument values either returns a value or
signals a domain failure. -/
abbrev Sem := String → List Value → Except String Value

/-- First-match lookup in a graph, as Python dict lookup (keys are
unique in the source dict). -/
def lookupG : Graph → String → Option Entry
  | [], _ => none
  | (k', e) :: rest, k => if k = k' then some e else lookupG rest k

/-- The names referenced by a task's arguments, in positional order. -/
def refsOf (args : List Arg) : List String :=
  args.filterMap (fun a => match a with | .ref k => some k | .lit _ => none)

/-- The dependency names of a graph entry (raw data entries have none). -/
def depsOf : Entry → List String
  | .data _ => []
  | .task _ args => refsOf args

/-- Part 1 of the translation of `dask_feature_graph` (split only to
keep elaboration fast; the full definition is their concatenation). -/
def dfgPart1 : Graph := [
  ("n_epochs", .task "len" [.ref "t"]),
  ("avg_err", .task "np.mean" [.ref "e"]),
  ("med_err", .task "np.median" [.ref "e"]),
  ("std_err", .task "np.std" [.ref "e"]),
  ("total_time", .task "lambda_max_minus_min" [.ref "t"]),
  ("avgt", .task "np.mean" [.ref "t"]),
  ("cads", .task "np.diff" [.ref "t"]),
  ("cads_std", .task "np.std" [.ref "cads"]),
  ("mean", .task "np.mean" [.ref "m"]),
  ("cads_avg", .task "np.mean" [.ref "cads"]),
  ("cads_med", .task "np.median" [.ref "cads"]),
  ("cad_probs_1", .task "cad_prob" [.ref "cads", .lit 1]),
  ("cad_probs_10", .task "cad_prob" [.ref "cads", .lit 10]),
  ("cad_probs_20", .task "cad_prob" [.ref "cads", .lit 20]),
  ("cad_probs_30", .task "cad_prob" [.ref "cads", .lit 30]),
  ("cad_probs_40", .task "cad_prob" [.ref "cads", .lit 40]),
  ("cad_probs_50", .task "cad_prob" [.ref "cads", .lit 50]),
  ("cad_probs_100", .task "cad_prob" [.ref "cads", .lit 100]),
  ("cad_probs_500", .task "cad_prob" [.ref "cads", .lit 500]),
  ("cad_probs_1000", .task "cad_prob" [.ref "cads", .lit 1000]),
  ("cad_probs_5000", .task "cad_prob" [.ref "cads", .lit 5000]),
  ("cad_probs_10000", .task "cad_prob" [.ref "cads", .lit 10000]),
  ("cad_probs_50000", .task "cad_prob" [.ref "cads", .lit 50000]),
  ("cad_probs_100000", .task "cad_prob" [.ref "cads", .lit 100000]),
  ("cad_probs_500000", .task "cad_prob" [.ref "cads", .lit 500000])
]

/-- Part 2 of the translation of `dask_feature_graph` (split only to
keep elaboration fast; the full definition is their concatenation). -/
def dfgPart2 : Graph := [
  ("cad_probs_1000000", .task "cad_prob" [.ref "cads", .lit 1000000]),
  ("cad_probs_5000000", .task "cad_prob" [.ref "cads", .lit 5000000]),
  ("cad_probs_10000000", .task "cad_prob" [.ref "cads", .lit 10000000]),
  ("double_to_single_step", .task "double_to_single_step" [.ref "cads"]),
  ("avg_double_to_single_step", .task "np.mean" [.ref "double_to_single_step"]),
  ("med_double_to_single_step", .task "np.median" [.ref "double_to_single_step"]),
  ("std_double_to_single_step", .task "np.std" [.ref "double_to_single_step"]),
  ("delta_t_hist", .task "delta_t_hist" [.ref "t"]),
  ("delta_t_nhist", .task "normalize_hist" [.ref "delta_t_hist", .ref "total_time"]),
  ("nhist_peaks", .task "find_sorted_peaks" [.ref "delta_t_nhist"]),
  ("all_times_hist_peak_val", .task "np.max" [.ref "delta_t_hist"]),
  ("all_times_hist_peak_bin", .task "int_np_argmax" [.ref "delta_t_hist"]),
  ("all_times_nhist_numpeaks", .task "len" [.ref "nhist_peaks"]),
  ("all_times_nhist_peak_val", .task "np.max" [.ref "delta_t_nhist"]),
  ("all_times_nhist_peak_1_to_2", .task "peak_ratio" [.ref "nhist_peaks", .lit 1, .lit 2]),
  ("all_times_nhist_peak_1_to_3", .task "peak_ratio" [.ref "nhist_peaks", .lit 1, .lit 3]),
  ("all_times_nhist_peak_2_to_3", .task "peak_ratio" [.ref "nhist_peaks", .lit 2, .lit 3]),
  ("all_times_nhist_peak_1_to_4", .task "peak_ratio" [.ref "nhist_peaks", .lit 1, .lit 4]),
  ("all_times_nhist_peak_2_to_4", .task "peak_ratio" [.ref "nhist_peaks", .lit 2, .lit 4]),
  ("all_times_nhist_peak_3_to_4", .task "peak_ratio" [.ref "nhist_peaks", .lit 3, .lit 4]),
  ("all_times_nhist_peak1_bin", .task "peak_bin" [.ref "nhist_peaks", .lit 1]),
  ("all_times_nhist_peak2_bin", .task "peak_bin" [.ref "nhist_peaks", .lit 2]),
  ("all_times_nhist_peak3_bin", .task "peak_bin" [.ref "nhist_peaks", .lit 3]),
  ("all_times_nhist_peak4_bin", .task "peak_bin" [.ref "nhist_peaks", .lit 4]),
  ("amplitude", .task "amplitude" [.ref "m"])
]

/-- Part 3 of the translation of `dask_feature_graph` (split only to
keep elaboration fast; the full definition is their concatenation). -/
def dfgPart3 : Graph := [
  ("flux_percentile_ratio_mid20", .task "flux_percentile_ratio" [.ref "m", .lit 20]),
  ("flux_percentile_ratio_mid35", .task "flux_percentile_ratio" [.ref "m", .lit 35]),
  ("flux_percentile_ratio_mid50", .task "flux_percentile_ratio" [.ref "m", .lit 50]),
  ("flux_percentile_ratio_mid65", .task "flux_percentile_ratio" [.ref "m", .lit 65]),
  ("flux_percentile_ratio_mid80", .task "flux_percentile_ratio" [.ref "m", .lit 80]),
  ("maximum", .task "maximum" [.ref "m"]),
  ("max_slope", .task "max_slope" [.ref "t", .ref "m"]),
  ("median", .task "median" [.ref "m"]),
  ("median_absolute_deviation", .task "median_absolute_deviation" [.ref "m"]),
  ("minimum", .task "minimum" [.ref "m"]),
  ("percent_amplitude", .task "percent_amplitude" [.ref "m"]),
  ("percent_beyond_1_std", .task "percent_beyond_1_std" [.ref "m", .ref "e"]),
  ("percent_close_to_median", .task "percent_close_to_median" [.ref "m"]),
  ("percent_difference_flux_percentile", .task "percent_difference_flux_percentile" [.ref "m"]),
  ("skew", .task "skew" [.ref "m"]),
  ("std", .task "std" [.ref "m"]),
  ("stetson_j", .task "stetson_j" [.ref "m"]),
  ("stetson_k", .task "stetson_k" [.ref "m"]),
  ("weighted_average", .task "weighted_average" [.ref "m", .ref "e"]),
  ("qso_model", .task "qso_fit" [.ref "t", .ref "m", .ref "e"]),
  ("qso_log_chi2_qsonu", .task "get_qso_log_chi2_qsonu" [.ref "qso_model"]),
  ("qso_log_chi2nuNULL_chi2nu", .task "get_qso_log_chi2nuNULL_chi2nu" [.ref "qso_model"]),
  ("period_fast", .task "lomb_scargle_fast_period" [.ref "t", .ref "m", .ref "e"]),
  ("_lomb_model", .task "lomb_scargle_model" [.ref "t", .ref "m", .ref "e"]),
  ("freq1_freq", .task "get_lomb_frequency" [.ref "_lomb_model", .lit 1])
]

/-- Part 4 of the translation of `dask_feature_graph` (split only to
keep elaboration fast; the full definition is their concatenation). -/
def dfgPart4 : Graph := [
  ("freq2_freq", .task "get_lomb_frequency" [.ref "_lomb_model", .lit 2]),
  ("freq3_freq", .task "get_lomb_frequency" [.ref "_lomb_model", .lit 3]),
  ("freq1_amplitude1", .task "get_lomb_amplitude" [.ref "_lomb_model", .lit 1, .lit 1]),
  ("freq1_amplitude2", .task "get_lomb_amplitude" [.ref "_lomb_model", .lit 1, .lit 2]),
  ("freq1_amplitude3", .task "get_lomb_amplitude" [.ref "_lomb_model", .lit 1, .lit 3]),
  ("freq1_amplitude4", .task "get_lomb_amplitude" [.ref "_lomb_model", .lit 1, .lit 4]),
  ("freq2_amplitude1", .task "get_lomb_amplitude" [.ref "_lomb_model", .lit 2, .lit 1]),
  ("freq2_amplitude2", .task "get_lomb_amplitude" [.ref "_lomb_model", .lit 2, .lit 2]),
  ("freq2_amplitude3", .task "get_lomb_amplitude" [.ref "_lomb_model", .lit 2, .lit 3]),
  ("freq2_amplitude4", .task "get_lomb_amplitude" [.ref "_lomb_model", .lit 2, .lit 4]),
  ("freq3_amplitude1", .task "get_lomb_amplitude" [.ref "_lomb_model", .lit 3, .lit 1]),
  ("freq3_amplitude2", .task "get_lomb_amplitude" [.ref "_lomb_model", .lit 3, .lit 2]),
  ("freq3_amplitude3", .task "get_lomb_amplitude" [.ref "_lomb_model", .lit 3, .lit 3]),
  ("freq3_amplitude4", .task "get_lomb_amplitude" [.ref "_lomb_model", .lit 3, .lit 4]),
  ("freq1_rel_phase2", .task "get_lomb_rel_phase" [.ref "_lomb_model", .lit 1, .lit 2]),
  ("freq1_rel_phase3", .task "get_lomb_rel_phase" [.ref "_lomb_model", .lit 1, .lit 3]),
  ("freq1_rel_phase4", .task "get_lomb_rel_phase" [.ref "_lomb_model", .lit 1, .lit 4]),
  ("freq2_rel_phase2", .task "get_lomb_rel_phase" [.ref "_lomb_model", .lit 2, .lit 2]),
  ("freq2_rel_phase3", .task "get_lomb_rel_phase" [.ref "_lomb_model", .lit 2, .lit 3]),
  ("freq2_rel_phase4", .task "get_lomb_rel_phase" [.ref "_lomb_model", .lit 2, .lit 4]),
  ("freq3_rel_phase2", .task "get_lomb_rel_phase" [.ref "_lomb_model", .lit 3, .lit 2]),
  ("freq3_rel_phase3", .task "get_lomb_rel_phase" [.ref "_lomb_model", .lit 3, .lit 3]),
  ("freq3_rel_phase4", .task "get_lomb_rel_phase" [.ref "_lomb_model", .lit 3, .lit 4]),
  ("freq_amplitude_ratio_21", .task "get_lomb_amplitude_ratio" [.ref "_lomb_model", .lit 2]),
  ("freq_amplitude_ratio_31", .task "get_lomb_amplitude_ratio" [.ref "_lomb_model", .lit 3])
]

/-- Part 5 of the translation of `dask_feature_graph` (split only to
keep elaboration fast; the full definition is their concatenation). -/
def dfgPart5 : Graph := [
  ("freq_frequency_ratio_21", .task "get_lomb_frequency_ratio" [.ref "_lomb_model", .lit 2]),
  ("freq_frequency_ratio_31", .task "get_lomb_frequency_ratio" [.ref "_lomb_model", .lit 3]),
  ("freq_signif_ratio_21", .task "get_lomb_signif_ratio" [.ref "_lomb_model", .lit 2]),
  ("freq_signif_ratio_31", .task "get_lomb_signif_ratio" [.ref "_lomb_model", .lit 3]),
  ("freq1_lambda", .task "get_lomb_lambda" [.ref "_lomb_model"]),
  ("freq1_signif", .task "get_lomb_signif" [.ref "_lomb_model"]),
  ("freq_varrat", .task "get_lomb_varrat" [.ref "_lomb_model"]),
  ("linear_trend", .task "get_lomb_trend" [.ref "_lomb_model"]),
  ("freq_y_offset", .task "get_lomb_y_offset" [.ref "_lomb_model"]),
  ("freq_n_alias", .task "num_alias" [.ref "_lomb_model"]),
  ("scatter_res_raw", .task "scatter_res_raw" [.ref "t", .ref "m", .ref "e", .ref "_lomb_model"]),
  ("_periodic_model", .task "periodic_model" [.ref "_lomb_model"]),
  ("_period_folded_model", .task "period_folding" [.ref "t", .ref "m", .ref "e", .ref "_lomb_model"]),
  ("freq_model_max_delta_mags", .task "get_max_delta_mags" [.ref "_periodic_model"]),
  ("freq_model_min_delta_mags", .task "get_min_delta_mags" [.ref "_periodic_model"]),
  ("freq_model_phi1_phi2", .task "get_model_phi1_phi2" [.ref "_periodic_model"]),
  ("fold2P_slope_10percentile", .task "get_fold2P_slope_percentile" [.ref "_period_folded_model", .lit 10]),
  ("fold2P_slope_90percentile", .task "get_fold2P_slope_percentile" [.ref "_period_folded_model", .lit 90]),
  ("medperc90_2p_p", .task "get_medperc90_2p_p" [.ref "_period_folded_model"]),
  ("_p2p_model", .task "p2p_model" [.ref "t", .ref "m", .ref "freq1_freq"]),
  ("p2p_scatter_2praw", .task "get_p2p_scatter_2praw" [.ref "_p2p_model"]),
  ("p2p_scatter_over_mad", .task "get_p2p_scatter_over_mad" [.ref "_p2p_model"]),
  ("p2p_scatter_pfold_over_mad", .task "get_p2p_scatter_pfold_over_mad" [.ref "_p2p_model"]),
  ("p2p_ssqr_diff_over_var", .task "get_p2p_ssqr_diff_over_var" [.ref "_p2p_model"])
]

/-- Translation of `dask_feature_graph` (src/cesium/features/graphs.py,
lines 101-249): each Python dict entry stays in source order; a dict
entry `(f, a1, a2, ...)` becomes `.task "f" [a1, a2, ...]` with string
arguments as `.ref` and integer constants as `.lit`. -/
def dask_feature_graph : Graph := dfgPart1 ++ dfgPart2 ++ dfgPart3 ++ dfgPart4 ++ dfgPart5

/-- Translation of `generate_dask_graph(t, m, e)` (lines 251-254): the
full graph starts with the raw-input bindings for 't', 'm', 'e' and is
then updated with the static feature graph (no key collisions, so this
is concatenation in the same order as the Python dict). -/
def generate_dask_graph (t m e : Value) : Graph :=
  ("t", .data t) :: ("m", .data m) :: ("e", .data e) :: dask_feature_graph

/-- The 'cadence' category list (`feature_categories['cadence']`,
lines 39-57). -/
def CADENCE_FEATS : List String := [
  "n_epochs", "avg_err", "med_err", "std_err",
  "total_time", "avgt", "cads_std", "mean",
  "cads_avg", "cads_med", "cad_probs_1",
  "cad_probs_10", "cad_probs_20", "cad_probs_30",
  "cad_probs_40", "cad_probs_50", "cad_probs_100",
  "cad_probs_500", "cad_probs_1000", "cad_probs_5000",
  "cad_probs_10000", "cad_probs_50000", "cad_probs_100000",
  "cad_probs_500000", "cad_probs_1000000", "cad_probs_5000000",
  "cad_probs_10000000", "med_double_to_single_step",
  "avg_double_to_single_step", "std_double_to_single_step",
  "all_times_hist_peak_val", "all_times_hist_peak_bin",
  "all_times_nhist_numpeaks", "all_times_nhist_peak_val",
  "all_times_nhist_peak_1_to_2", "all_times_nhist_peak_1_to_3",
  "all_times_nhist_peak_2_to_3", "all_times_nhist_peak_1_to_4",
  "all_times_nhist_peak_2_to_4", "all_times_nhist_peak_3_to_4",
  "all_times_nhist_peak1_bin", "all_times_nhist_peak2_bin",
  "all_times_nhist_peak3_bin", "all_times_nhist_peak4_bin"
]

/-- The 'general' category list (`feature_categories['general']`,
lines 59-69). -/
def GENERAL_FEATS : List String := [
  "amplitude", "flux_percentile_ratio_mid20",
  "flux_percentile_ratio_mid35", "flux_percentile_ratio_mid50",
  "flux_percentile_ratio_mid65", "flux_percentile_ratio_mid80",
  "max_slope", "maximum", "median", "median_absolute_deviation",
  "minimum", "percent_amplitude", "percent_beyond_1_std",
  "percent_close_to_median",
  "percent_difference_flux_percentile", "period_fast",
  "qso_log_chi2_qsonu", "qso_log_chi2nuNULL_chi2nu", "skew",
  "std", "stetson_j", "stetson_k", "weighted_average"
]

/-- The 'lomb_scargle' category list (`feature_categories['lomb_scargle']`,
lines 71-91). -/
def LOMB_SCARGLE_FEATS : List String := [
  "fold2P_slope_10percentile", "fold2P_slope_90percentile",
  "freq1_amplitude1", "freq1_amplitude2", "freq1_amplitude3",
  "freq1_amplitude4", "freq1_freq", "freq1_lambda",
  "freq1_rel_phase2", "freq1_rel_phase3", "freq1_rel_phase4",
  "freq1_signif", "freq2_amplitude1", "freq2_amplitude2",
  "freq2_amplitude3", "freq2_amplitude4", "freq2_freq",
  "freq2_rel_phase2", "freq2_rel_phase3", "freq2_rel_phase4",
  "freq3_amplitude1", "freq3_amplitude2", "freq3_amplitude3",
  "freq3_amplitude4", "freq3_freq", "freq3_rel_phase2",
  "freq3_rel_phase3", "freq3_rel_phase4",
  "freq_amplitude_ratio_21", "freq_amplitude_ratio_31",
  "freq_frequency_ratio_21", "freq_frequency_ratio_31",
  "freq_model_max_delta_mags", "freq_model_min_delta_mags",
  "freq_model_phi1_phi2", "freq_n_alias",
  "freq_signif_ratio_21", "freq_signif_ratio_31", "freq_varrat",
  "freq_y_offset", "linear_trend", "medperc90_2p_p",
  "p2p_scatter_2praw", "p2p_scatter_over_mad",
  "p2p_scatter_pfold_over_mad", "p2p_ssqr_diff_over_var",
  "scatter_res_raw"
]

/-- `feature_categories` as a tag-to-list mapping (lines 38-92). -/
def feature_categories : String → Option (List String)
  | "cadence" => some CADENCE_FEATS
  | "general" => some GENERAL_FEATS
  | "lomb_scargle" => some LOMB_SCARGLE_FEATS
  | _ => none

/-- All publicly selectable output names: the concatenation of the
three declared category lists. -/
def allFeats : List String := CADENCE_FEATS ++ GENERAL_FEATS ++ LOMB_SCARGLE_FEATS

/-- The mutable state of one evaluation call: the (immutable) graph
being evaluated, the per-call result cache, and the list of node names
whose operation has actually been invoked (most recent first). -/
structure St where
  graph : Graph
  cache : List (String × NodeResult)
  trace : List String
  deriving Repr

/-- First-match lookup in the evaluation cache. -/
def lookupC : List (String × NodeResult) → String → Option NodeResult
  | [], _ => none
  | (k', r) :: rest, k => if k = k' then some r else lookupC rest k

/-- Resolution of one argument against the cache: a literal constant
is passed as-is; a reference takes the referenced node's terminal
result. -/
def resolveArg (c : List (String × NodeResult)) : Arg → NodeResult
  | .lit n => .done (.int n)
  | .ref k => match lookupC c k with
    | some r => r
    | none => .failed "unresolved reference"

/-- The originating error of the first non-`done` resolved argument,
if any; a `propagated` dependency contributes the error it wraps, so a
propagated failure always carries the originating error. -/
def firstFailure : List NodeResult → Option String
  | [] => none
  | .done _ :: rest => firstFailure rest
  | .failed e :: _ => some e
  | .propagated e :: _ => some e

/-- The values of a list of `done` results, in order. -/
def valuesOf (rs : List NodeResult) : List Value :=
  rs.filterMap (fun r => match r with | .done v => some v | _ => none)

/-- Modelled from the spec: the claim-and-run step of one task node
whose dependencies have just been evaluated into the state's cache: a
node someone already resolved is left alone; if some dependency
failed, the node is marked `propagated` with the originating error and
its operation is never invoked; otherwise its operation is invoked
exactly once (recorded in the trace) on the positionally resolved
argument values, yielding `done` or `failed`. -/
def runTask (sem : Sem) (k : String) (op : String) (args : List Arg) (s1 : St) : St :=
  match lookupC s1.cache k with
  | some _ => s1
  | none =>
    match firstFailure (args.map (resolveArg s1.cache)) with
    | some e => { s1 with cache := (k, .propagated e) :: s1.cache }
    | none =>
      match sem op (valuesOf (args.map (resolveArg s1.cache))) with
      | .ok v =>
        { s1 with cache := (k, .done v) :: s1.cache, trace := k :: s1.trace }
      | .error e =>
        { s1 with cache := (k, .failed e) :: s1.cache, trace := k :: s1.trace }

/-- Modelled from the spec: the evaluator (dask's scheduler, not part
of src/cesium/features/graphs.py).  Demand-driven evaluation of one
key: a cached key is returned without any work; a raw-data key is
cached as done; a task first evaluates its referenced dependencies in
order and then takes the claim-and-run step.  Fuel bounds the
recursion depth (any fuel exceeding the dependency depth gives the
full evaluation). -/
def evalKeyF (sem : Sem) : Nat → String → St → St
  | 0, _, s => s
  | fuel + 1, k, s =>
    match lookupC s.cache k with
    | some _ => s
    | none =>
      match lookupG s.graph k with
      | none => { s with cache := (k, .failed "missing key") :: s.cache }
      | some (.data v) => { s with cache := (k, .done v) :: s.cache }
      | some (.task op args) =>
        runTask sem k op args ((refsOf args).foldl (fun acc d => evalKeyF sem fuel d acc) s)

/-- Modelled from the spec: evaluation of a list of requested keys in
order, threading the shared cache. -/
def evalKeys (sem : Sem) (fuel : Nat) (ks : List String) (s : St) : St :=
  ks.foldl (fun acc k => evalKeyF sem fuel k acc) s

/-- Modelled from the spec: the terminal state of evaluating a
requested list of output names on a graph, starting from an empty
cache, with fuel ample for any dependency depth. -/
def finalState (sem : Sem) (g : Graph) (req : List String) : St :=
  evalKeys sem (g.length + 1) req { graph := g, cache := [], trace := [] }

/-- Modelled from the spec: the result mapping of one evaluation call,
projecting exactly the requested names out of the terminal cache. -/
def evaluate (sem : Sem) (g : Graph) (req : List String) : List (String × NodeResult) :=
  req.map (fun k => (k, (lookupC (finalState sem g req).cache k).getD (.failed "not evaluated")))

/-- Modelled from the spec: a semantics in which every operation is an
opaque pure function that succeeds; used for claims that depend only
on the evaluation structure, never on particular values. -/
def semOk : Sem := fun _ _ => .ok (.num 0)

/-- Modelled from the spec: a semantics in which the shared
`lomb_scargle_model` fit (the operation of the `_lomb_model` node)
signals a domain failure while every other operation succeeds. -/
def semLombFail : Sem := fun op _ =>
  if op = "lomb_scargle_model" then .error "singular fit" else .ok (.num 0)

/-- First index of the maximum of a list, accumulator form
(`np.argmax` keeps the first occurrence, so only a strictly greater
element replaces the current best). -/
def argmaxGo : List ℚ → ℚ → Nat → Nat → Nat
  | [], _, best, _ => best
  | y :: ys, b, best, i => if b < y then argmaxGo ys y i (i + 1) else argmaxGo ys b best (i + 1)

/-- `np.argmax` on a rational array: the index of the first maximal
element, or none for an empty array (where numpy raises). -/
def argmaxQ : List ℚ → Option Nat
  | [] => none
  | x :: xs => some (argmaxGo xs x 0 1)

/-- Exact rational addition through numerator/denominator arithmetic
(kept away from the library's irreducible field operations so that
concrete evaluations reduce). -/
def addQ (a b : ℚ) : ℚ := mkRat (a.num * (b.den : ℤ) + b.num * (a.den : ℤ)) (a.den * b.den)

/-- Exact sum of a rational list. -/
def sumQ (l : List ℚ) : ℚ := l.foldl addQ (mkRat 0 1)

/-- Exact arithmetic mean of a rational list: its sum divided by its
length, the mathematical content of `np.mean`. -/
def meanQ (l : List ℚ) : ℚ := mkRat (sumQ l).num ((sumQ l).den * l.length)

/-- The concrete semantics of the operations whose behaviour the
claims inspect, translated from their sources: Python `len` (line
102), `np.mean` (line 110) as sum over length, and the line-139 lambda
`lambda x: int(np.argmax(x))`, which coerces the argmax index to a
native integer before returning.  Every other operation of the graph
is opaque here. -/
def semCesium : Sem := fun op vs =>
  match op, vs with
  | "len", [.arr l] => .ok (.int l.length)
  | "np.mean", [.arr l] =>
    if l.length = 0 then .error "mean of empty array" else .ok (.num (meanQ l))
  | "int_np_argmax", [.arr l] =>
    match argmaxQ l with
    | some i => .ok (.int i)
    | none => .error "argmax of an empty sequence"
  | _, _ => .error "opaque operation"

/-- The concrete raw time input `t=[0,1,2,3]` of the spec scenario. -/
def tConcrete : Value := .arr [0, 1, 2, 3]

/-- The concrete raw value input `m=[1.0,2.0,1.5,1.8]` of the spec
scenario (`3/2 = 1.5`, `9/5 = 1.8`). -/
def mConcrete : Value := .arr [1, 2, mkRat 3 2, mkRat 9 5]

/-- The concrete raw error input `e=[0.1,0.1,0.1,0.1]` of the spec
scenario (`1/10 = 0.1`). -/
def eConcrete : Value := .arr [mkRat 1 10, mkRat 1 10, mkRat 1 10, mkRat 1 10]

/-- The full graph built from the concrete scenario inputs. -/
def graphConcrete : Graph := generate_dask_graph tConcrete mConcrete eConcrete

deriving instance DecidableEq for Except

/-- Removal of duplicates keeping the first occurrence, accumulator
form. -/
def dedupGo (seen : List String) : List String → List String
  | [] => []
  | x :: xs => if x ∈ seen then dedupGo seen xs else x :: dedupGo (x :: seen) xs

/-- Removal of duplicates from a name list, keeping first occurrences
in order. -/
def dedupFirst (l : List String) : List String := dedupGo [] l

/-- Modelled from the spec: expansion of a single selector (the
selector expansion operation is not part of
src/cesium/features/graphs.py): a registered category tag yields its
declared list; a registered concrete output name yields itself; any
other selector is an unknown-selector error. -/
def expandOne (s : String) : Except String (List String) :=
  match feature_categories s with
  | some l => .ok l
  | none =>
    if s ∈ allFeats then .ok [s]
    else .error ("UnknownSelectorError: " ++ s)

/-- Modelled from the spec: expansion of each selector of a list in
order, failing on the first unknown selector. -/
def expandList : List String → Except String (List (List String))
  | [] => .ok []
  | s :: ss => (expandOne s).bind (fun l => (expandList ss).map (fun ls => l :: ls))

/-- Modelled from the spec: expansion of a selector list into an
ordered, duplicate-free list of output names, failing on the first
unknown selector. -/
def expandSel (sels : List String) : Except String (List String) :=
  (expandList sels).map (fun ls => dedupFirst ls.flatten)

/-- Whether a selector is registered: a category tag or a declared
output name. -/
def isRegistered (s : String) : Bool :=
  (feature_categories s).isSome || s ∈ allFeats

/-- The expansion a registered selector contributes: its declared
category list for a tag, itself for a concrete name. -/
def expansionOf (s : String) : List String :=
  (feature_categories s).getD [s]

/-- Reachability in the node-reference dependency graph: `Reach g k i`
holds when `i` is in the dependency closure of `k` (reflexively, or
through the string references of `k`'s task). -/
inductive Reach (g : Graph) : String → String → Prop where
  | refl (k : String) : Reach g k k
  | step {k j i : String} {op : String} {args : List Arg}
      (hk : lookupG g k = some (.task op args)) (hj : j ∈ refsOf args)
      (h : Reach g j i) : Reach g k i

/-- A single node-reference edge: node `k` is a task one of whose
string arguments references `j`. -/
def edgeG (g : Graph) (k j : String) : Prop :=
  ∃ op args, lookupG g k = some (.task op args) ∧ j ∈ refsOf args

/-- The index of a key in a graph (its topological position in the
dict order). -/
def idxG (g : Graph) (k : String) : Nat :=
  g.findIdx (fun p => p.1 == k)

/-- Decidable check that every node-reference edge points strictly
backwards in dict order: a concrete topological ranking witnessing
acyclicity. -/
def edgesForward (g : Graph) : Bool :=
  g.all (fun p => (depsOf p.2).all (fun d => decide (idxG g d < idxG g p.1)))

/-- Decidable check that every string argument of every node of the
static graph is a declared raw-input name or a key of the graph. -/
def resolveCheck : Bool :=
  dask_feature_graph.all (fun p => (depsOf p.2).all (fun d =>
    d == "t" || d == "m" || d == "e" || (lookupG dask_feature_graph d).isSome))

/-- The per-evaluation invariant: no operation has been invoked twice,
every invoked node has a cached terminal result, and a node cached as
`propagated` never had its operation invoked. -/
def StInv (s : St) : Prop :=
  s.trace.Nodup ∧ (∀ j, j ∈ s.trace → (lookupC s.cache j).isSome) ∧
    (∀ j e2, lookupC s.cache j = some (.propagated e2) → j ∉ s.trace)

/-- Whether a graph entry's operation is the line-139 lambda
`lambda x: int(np.argmax(x))`, the one operation of the source graph
that coerces its result with `int()` before returning. -/
def taskUsesIntCast (en : Entry) : Bool :=
  match en with
  | .task op _ => op == "int_np_argmax"
  | .data _ => false

/-- The ten dependency-only node names of the static graph: the keys
of `dask_feature_graph` that appear in none of the three declared
category lists. -/
def internalNodeNames : List String :=
  ["cads", "double_to_single_step", "delta_t_hist", "delta_t_nhist",
   "nhist_peaks", "qso_model", "_lomb_model", "_periodic_model",
   "_period_folded_model", "_p2p_model"]

theorem lookupG_mem {g : Graph} {k : String} {e : Entry}
    (h : lookupG g k = some e) : (k, e) ∈ g := by
  induction g with
  | nil => simp [lookupG] at h
  | cons p rest ih =>
    obtain ⟨k', e'⟩ := p
    simp only [lookupG] at h
    split at h
    · next heq =>
      obtain rfl := Option.some.inj h
      subst heq
      exact List.mem_cons_self _ _
    · exact List.mem_cons_of_mem _ (ih h)

theorem edgesForward_lt {g : Graph} (hg : edgesForward g = true)
    {k j : String} (he : edgeG g k j) : idxG g j < idxG g k := by
  obtain ⟨op, args, hl, hj⟩ := he
  have hm := lookupG_mem hl
  have h1 := List.all_eq_true.mp hg _ hm
  have h2 := List.all_eq_true.mp h1 j (by simpa [depsOf] using hj)
  simpa using h2

theorem acyclic_of_forward {g : Graph} (hg : edgesForward g = true) :
    ∀ k j, edgeG g k j → ¬ Relation.ReflTransGen (edgeG g) j k := by
  have mono : ∀ a b, Relation.ReflTransGen (edgeG g) a b → idxG g b ≤ idxG g a := by
    intro a b h
    induction h with
    | refl => exact le_refl _
    | tail _ h2 ih => exact le_trans (le_of_lt (edgesForward_lt hg h2)) ih
  intro k j he hrt
  have h1 := mono _ _ hrt
  have h2 := edgesForward_lt hg he
  omega

theorem lookupG_generate (t m e : Value) (k : String) :
    lookupG (generate_dask_graph t m e) k =
      if k = "t" then some (.data t)
      else if k = "m" then some (.data m)
      else if k = "e" then some (.data e)
      else lookupG dask_feature_graph k := by
  simp only [generate_dask_graph, lookupG]

theorem edgeG_generate (t m e : Value) (k j : String) :
    edgeG (generate_dask_graph t m e) k j ↔ edgeG graphConcrete k j := by
  unfold edgeG graphConcrete
  rw [lookupG_generate, lookupG_generate]
  by_cases h1 : k = "t" <;> by_cases h2 : k = "m" <;> by_cases h3 : k = "e" <;>
    simp [h1, h2, h3]

theorem lookupC_cons (k' : String) (r : NodeResult)
    (c : List (String × NodeResult)) (k : String) :
    lookupC ((k', r) :: c) k = if k = k' then some r else lookupC c k := rfl


theorem stInv_cacheCons {s : St} {k : String} {r : NodeResult}
    (h : StInv s) (hk : lookupC s.cache k = none) :
    StInv { s with cache := (k, r) :: s.cache } := by
  obtain ⟨h1, h2, h3⟩ := h
  refine ⟨h1, ?_, ?_⟩
  · intro j hj
    have hjs := h2 j hj
    by_cases hjk : j = k
    · subst hjk
      simp [lookupC_cons]
    · simpa [lookupC_cons, hjk] using hjs
  · intro j e2 hj
    by_cases hjk : j = k
    · subst hjk
      intro hmem
      have := h2 j hmem
      rw [hk] at this
      simp at this
    · rw [lookupC_cons, if_neg hjk] at hj
      exact h3 j e2 hj

theorem stInv_traceCons {s : St} {k : String} {r : NodeResult}
    (h : StInv s) (hk : lookupC s.cache k = none)
    (hr : ∀ e2, r ≠ .propagated e2) :
    StInv { s with cache := (k, r) :: s.cache, trace := k :: s.trace } := by
  obtain ⟨h1, h2, h3⟩ := h
  have hknot : k ∉ s.trace := by
    intro hmem
    have := h2 k hmem
    rw [hk] at this
    simp at this
  refine ⟨List.nodup_cons.mpr ⟨hknot, h1⟩, ?_, ?_⟩
  · intro j hj
    rcases List.mem_cons.mp hj with rfl | hj
    · simp [lookupC_cons]
    · have hjs := h2 j hj
      by_cases hjk : j = k
      · subst hjk
        simp [lookupC_cons]
      · simpa [lookupC_cons, hjk] using hjs
  · intro j e2 hj
    rw [lookupC_cons] at hj
    by_cases hjk : j = k
    · rw [if_pos hjk] at hj
      exact absurd (Option.some.inj hj) (hr e2)
    · rw [if_neg hjk] at hj
      intro hmem
      rcases List.mem_cons.mp hmem with rfl | hmem
      · exact hjk rfl
      · exact h3 j e2 hj hmem

theorem foldl_inv {P : St → Prop} {step : St → String → St}
    (hstep : ∀ s d, P s → P (step s d)) :
    ∀ (ds : List String) (s : St), P s → P (ds.foldl step s) := by
  intro ds
  induction ds with
  | nil => intro s h; exact h
  | cons d ds ih => intro s h; exact ih _ (hstep s d h)

theorem runTask_graph (sem : Sem) (k op : String) (args : List Arg) (s1 : St) :
    (runTask sem k op args s1).graph = s1.graph := by
  unfold runTask
  split
  · rfl
  · split
    · rfl
    · split <;> rfl

theorem runTask_trace (sem : Sem) (k op : String) (args : List Arg) (s1 : St)
    (j : String) (hj : j ∈ (runTask sem k op args s1).trace) :
    j = k ∨ j ∈ s1.trace := by
  unfold runTask at hj
  split at hj
  · exact Or.inr hj
  · split at hj
    · exact Or.inr hj
    · split at hj <;> simpa using List.mem_cons.mp hj

theorem runTask_mono (sem : Sem) (k op : String) (args : List Arg) (s1 : St)
    {j : String} {r : NodeResult} (hj : lookupC s1.cache j = some r) :
    lookupC (runTask sem k op args s1).cache j = some r := by
  have hjk : lookupC s1.cache k = none → j ≠ k := by
    intro hk rfl2
    subst rfl2
    rw [hk] at hj
    cases hj
  unfold runTask
  split
  · exact hj
  · next hk =>
    split
    · simp [lookupC_cons, hjk hk, hj]
    · split <;> simp [lookupC_cons, hjk hk, hj]

theorem runTask_inv (sem : Sem) (k op : String) (args : List Arg) (s1 : St)
    (h : StInv s1) : StInv (runTask sem k op args s1) := by
  unfold runTask
  split
  · exact h
  · next hk =>
    split
    · exact stInv_cacheCons h hk
    · split
      · exact stInv_traceCons h hk (by intro e2 he; cases he)
      · exact stInv_traceCons h hk (by intro e2 he; cases he)

theorem runTask_caches (sem : Sem) (k op : String) (args : List Arg) (s1 : St) :
    (lookupC (runTask sem k op args s1).cache k).isSome := by
  unfold runTask
  split
  · next r hr => rw [hr]; rfl
  · split
    · simp [lookupC_cons]
    · split <;> simp [lookupC_cons]

theorem evalKeyF_graph (sem : Sem) :
    ∀ (fuel : Nat) (k : String) (s : St), (evalKeyF sem fuel k s).graph = s.graph := by
  intro fuel
  induction fuel with
  | zero => intro k s; rfl
  | succ n ih =>
    intro k s
    rw [evalKeyF]
    split
    · rfl
    · split
      · rfl
      · rfl
      · rw [runTask_graph]
        exact foldl_inv (P := fun s' => s'.graph = s.graph)
          (fun s' d h => (ih d s').trans h) _ _ rfl

theorem evalKeyF_mono (sem : Sem) :
    ∀ (fuel : Nat) (k : String) (s : St) (j : String) (r : NodeResult),
      lookupC s.cache j = some r → lookupC (evalKeyF sem fuel k s).cache j = some r := by
  intro fuel
  induction fuel with
  | zero => intro k s j r h; exact h
  | succ n ih =>
    intro k s j r h
    rw [evalKeyF]
    split
    · exact h
    · next hk =>
      have hjk : j ≠ k := by
        intro rfl2
        subst rfl2
        rw [hk] at h
        cases h
      split
      · simp [lookupC_cons, hjk, h]
      · simp [lookupC_cons, hjk, h]
      · refine runTask_mono sem k _ _ _ ?_
        exact foldl_inv (P := fun s' => lookupC s'.cache j = some r)
          (fun s' d hp => ih d s' j r hp) _ _ h

theorem evalKeyF_inv (sem : Sem) :
    ∀ (fuel : Nat) (k : String) (s : St), StInv s → StInv (evalKeyF sem fuel k s) := by
  intro fuel
  induction fuel with
  | zero => intro k s h; exact h
  | succ n ih =>
    intro k s h
    rw [evalKeyF]
    split
    · exact h
    · next hk =>
      split
      · exact stInv_cacheCons h hk
      · exact stInv_cacheCons h hk
      · refine runTask_inv sem k _ _ _ ?_
        exact foldl_inv (P := StInv) (fun s' d hp => ih d s' hp) _ _ h

theorem evalKeyF_cached (sem : Sem) (fuel : Nat) (k : String) (s : St)
    (h : (lookupC s.cache k).isSome) : evalKeyF sem fuel k s = s := by
  cases fuel with
  | zero => rfl
  | succ n =>
    obtain ⟨r, hr⟩ := Option.isSome_iff_exists.mp h
    rw [evalKeyF, hr]

theorem evalKeyF_caches (sem : Sem) (n : Nat) (k : String) (s : St) :
    (lookupC (evalKeyF sem (n + 1) k s).cache k).isSome := by
  rw [evalKeyF]
  split
  · next r hr => rw [hr]; rfl
  · split
    · simp [lookupC_cons]
    · simp [lookupC_cons]
    · exact runTask_caches sem k _ _ _

theorem foldl_trace {g : Graph} (step : St → String → St)
    (hg : ∀ s d, (step s d).graph = s.graph)
    (hstep : ∀ s d j, s.graph = g → j ∈ (step s d).trace → j ∈ s.trace ∨ Reach g d j) :
    ∀ (ds : List String) (s : St), s.graph = g → ∀ j, j ∈ (ds.foldl step s).trace →
      j ∈ s.trace ∨ ∃ d ∈ ds, Reach g d j := by
  intro ds
  induction ds with
  | nil => intro s _ j hj; exact Or.inl hj
  | cons d ds ih =>
    intro s hsg j hj
    have hg2 : (step s d).graph = g := by rw [hg s d]; exact hsg
    rcases ih (step s d) hg2 j hj with hj2 | ⟨d2, hd2, hr⟩
    · rcases hstep s d j hsg hj2 with h | h
      · exact Or.inl h
      · exact Or.inr ⟨d, List.mem_cons_self _ _, h⟩
    · exact Or.inr ⟨d2, List.mem_cons_of_mem _ hd2, hr⟩

theorem evalKeyF_trace_reach (sem : Sem) :
    ∀ (fuel : Nat) (k : String) (s : St) (j : String),
      j ∈ (evalKeyF sem fuel k s).trace → j ∈ s.trace ∨ Reach s.graph k j := by
  intro fuel
  induction fuel with
  | zero => intro k s j hj; exact Or.inl hj
  | succ n ih =>
    intro k s j hj
    rw [evalKeyF] at hj
    split at hj
    · exact Or.inl hj
    · split at hj
      · exact Or.inl hj
      · exact Or.inl hj
      · next op args heq =>
        rcases runTask_trace sem k op args _ j hj with rfl | hj1
        · exact Or.inr (Reach.refl _)
        · have hrec := foldl_trace (g := s.graph)
            (fun acc d => evalKeyF sem n d acc)
            (fun s' d => evalKeyF_graph sem n d s')
            (fun s' d j2 hsg hj2 => by
              rcases ih d s' j2 hj2 with h | h
              · exact Or.inl h
              · rw [hsg] at h
                exact Or.inr h)
            (refsOf args) s rfl j hj1
          rcases hrec with h | ⟨d, hd, hr⟩
          · exact Or.inl h
          · exact Or.inr (Reach.step heq hd hr)

theorem evalKeys_graph (sem : Sem) (fuel : Nat) (ks : List String) (s : St) :
    (evalKeys sem fuel ks s).graph = s.graph := by
  unfold evalKeys
  exact foldl_inv (P := fun s' => s'.graph = s.graph)
    (fun s' d h => (evalKeyF_graph sem fuel d s').trans h) _ _ rfl

theorem evalKeys_inv (sem : Sem) (fuel : Nat) (ks : List String) (s : St)
    (h : StInv s) : StInv (evalKeys sem fuel ks s) := by
  unfold evalKeys
  exact foldl_inv (P := StInv) (fun s' d hp => evalKeyF_inv sem fuel d s' hp) _ _ h

theorem evalKeys_mono (sem : Sem) (fuel : Nat) (ks : List String) (s : St)
    {j : String} {r : NodeResult} (h : lookupC s.cache j = some r) :
    lookupC (evalKeys sem fuel ks s).cache j = some r := by
  unfold evalKeys
  exact foldl_inv (P := fun s' => lookupC s'.cache j = some r)
    (fun s' d hp => evalKeyF_mono sem fuel d s' j r hp) _ _ h

theorem evalKeys_cached (sem : Sem) (n : Nat) :
    ∀ (ks : List String) (s : St) (k : String), k ∈ ks →
      (lookupC (evalKeys sem (n + 1) ks s).cache k).isSome := by
  intro ks
  induction ks with
  | nil => intro s k hk; cases hk
  | cons k2 ks ih =>
    intro s k hk
    rcases List.mem_cons.mp hk with rfl | hk
    · show (lookupC (evalKeys sem (n + 1) ks (evalKeyF sem (n + 1) k s)).cache k).isSome
      obtain ⟨r, hr⟩ := Option.isSome_iff_exists.mp (evalKeyF_caches sem n k s)
      rw [evalKeys_mono sem (n + 1) ks _ hr]
      rfl
    · exact ih (evalKeyF sem (n + 1) k2 s) k hk

theorem evalKeys_id (sem : Sem) (fuel : Nat) :
    ∀ (ks : List String) (s : St), (∀ k ∈ ks, (lookupC s.cache k).isSome) →
      evalKeys sem fuel ks s = s := by
  intro ks
  induction ks with
  | nil => intro s _; rfl
  | cons k ks ih =>
    intro s h
    show evalKeys sem fuel ks (evalKeyF sem fuel k s) = s
    rw [evalKeyF_cached sem fuel k s (h k (List.mem_cons_self _ _))]
    exact ih s (fun k2 hk2 => h k2 (List.mem_cons_of_mem _ hk2))

theorem finalState_inv (sem : Sem) (g : Graph) (req : List String) :
    StInv (finalState sem g req) := by
  unfold finalState
  refine evalKeys_inv sem _ req _ ?_
  refine ⟨List.nodup_nil, ?_, ?_⟩
  · intro j hj; cases hj
  · intro j e2 hj; cases hj

theorem finalState_trace_reach (sem : Sem) (g : Graph) (req : List String)
    (j : String) (hj : j ∈ (finalState sem g req).trace) :
    ∃ k ∈ req, Reach g k j := by
  have hrec := foldl_trace (g := g)
    (fun acc d => evalKeyF sem (g.length + 1) d acc)
    (fun s' d => evalKeyF_graph sem (g.length + 1) d s')
    (fun s' d j2 hsg hj2 => by
      rcases evalKeyF_trace_reach sem (g.length + 1) d s' j2 hj2 with h | h
      · exact Or.inl h
      · rw [hsg] at h
        exact Or.inr h)
    req { graph := g, cache := [], trace := [] } rfl j hj
  rcases hrec with h | h
  · cases h
  · exact h

theorem finalState_graph (sem : Sem) (g : Graph) (req : List String) :
    (finalState sem g req).graph = g :=
  evalKeys_graph sem (g.length + 1) req _

theorem finalState_nodup (sem : Sem) (g : Graph) (req : List String) :
    (finalState sem g req).trace.Nodup :=
  (finalState_inv sem g req).1

theorem finalState_propagated_not_invoked (sem : Sem) (g : Graph)
    (req : List String) (k : String) (e2 : String)
    (h : lookupC (finalState sem g req).cache k = some (.propagated e2)) :
    k ∉ (finalState sem g req).trace :=
  (finalState_inv sem g req).2.2 k e2 h

theorem finalState_idem (sem : Sem) (g : Graph) (req : List String) :
    evalKeys sem (g.length + 1) req (finalState sem g req) = finalState sem g req := by
  refine evalKeys_id sem (g.length + 1) req _ ?_
  intro k hk
  exact evalKeys_cached sem g.length req _ k hk

theorem evaluate_keys (sem : Sem) (g : Graph) (req : List String) :
    (evaluate sem g req).map Prod.fst = req := by
  unfold evaluate
  rw [List.map_map]
  have h : (Prod.fst ∘ fun k => (k,
      (lookupC (finalState sem g req).cache k).getD (NodeResult.failed "not evaluated"))) =
      fun a => a := by
    funext k2
    rfl
  rw [h]
  exact List.map_id' req

theorem expandOne_registered {s : String} (h : isRegistered s = true) :
    expandOne s = .ok (expansionOf s) := by
  unfold expandOne expansionOf
  cases hc : feature_categories s with
  | some l => simp
  | none =>
    unfold isRegistered at h
    rw [hc] at h
    simp only [Option.isSome_none, Bool.false_or] at h
    simp [of_decide_eq_true h]

theorem expandOne_unregistered {s : String} (h : isRegistered s = false) :
    expandOne s = .error ("UnknownSelectorError: " ++ s) := by
  unfold expandOne
  unfold isRegistered at h
  cases hc : feature_categories s with
  | some l => rw [hc] at h; simp at h
  | none =>
    rw [hc] at h
    simp only [Option.isSome_none, Bool.false_or] at h
    simp [of_decide_eq_false h]

theorem expandList_ok : ∀ (sels : List String),
    (∀ s ∈ sels, isRegistered s = true) →
    expandList sels = .ok (sels.map expansionOf) := by
  intro sels
  induction sels with
  | nil => intro _; rfl
  | cons s ss ih =>
    intro h
    unfold expandList
    rw [expandOne_registered (h s (List.mem_cons_self _ _))]
    rw [ih (fun x hx => h x (List.mem_cons_of_mem _ hx))]
    rfl

theorem expandList_err : ∀ (sels : List String) (s : String), s ∈ sels →
    isRegistered s = false → ∃ msg, expandList sels = .error msg := by
  intro sels
  induction sels with
  | nil => intro s hs; cases hs
  | cons x ss ih =>
    intro s hs hreg
    unfold expandList
    rcases List.mem_cons.mp hs with rfl | hs2
    · rw [expandOne_unregistered hreg]
      exact ⟨_, rfl⟩
    · cases hx : expandOne x with
      | error msg => exact ⟨msg, rfl⟩
      | ok l =>
        obtain ⟨msg, hmsg⟩ := ih s hs2 hreg
        rw [hmsg]
        exact ⟨msg, rfl⟩


/-- C1: for raw inputs `t=[0,1,2,3]`, `m=[1.0,2.0,1.5,1.8]`,
`e=[0.1,0.1,0.1,0.1]`, evaluating the graph produced by
`generate_dask_graph` for the requested set `{"n_epochs", "mean"}`
returns `{"n_epochs": 4, "mean": 1.575}`, and exactly two nodes'
operations are executed, namely the two requested leaves (the
invocation trace is exactly `["mean", "n_epochs"]`, most recent
first). -/
theorem c1_concrete_scenario :
    evaluate semCesium graphConcrete ["n_epochs", "mean"] =
      [("n_epochs", .done (.int 4)), ("mean", .done (.num (1.575 : ℚ)))] ∧
    (finalState semCesium graphConcrete ["n_epochs", "mean"]).trace =
      ["mean", "n_epochs"] := by
  have h : (1.575 : ℚ) = Rat.ofScientific 1575 true 3 := rfl
  rw [h, Rat.ofScientific_true_def]
  exact ⟨by decide, by decide⟩

/-- C2: the static graph definition with the raw inputs declared by
`generate_dask_graph` is well-formed: every string argument of every
node resolves to one of the raw-input names 't', 'm', 'e' or to a node
key of the same graph, and the node-reference dependency graph is
acyclic (no key strictly reaches itself through reference edges). -/
theorem c2_graph_well_formed :
    resolveCheck = true ∧
    ∀ (t m e : Value) (k j : String), edgeG (generate_dask_graph t m e) k j →
      ¬ Relation.ReflTransGen (edgeG (generate_dask_graph t m e)) j k := by
  refine ⟨by decide, ?_⟩
  intro t m e k j he hrt
  have hfc : edgesForward graphConcrete = true := by decide
  have he2 : edgeG graphConcrete k j := (edgeG_generate t m e k j).mp he
  have hrt2 : Relation.ReflTransGen (edgeG graphConcrete) j k :=
    Relation.ReflTransGen.mono (fun a b hab => (edgeG_generate t m e a b).mp hab) hrt
  exact acyclic_of_forward hfc k j he2 hrt2

/-- Witness for C2: 'cads_std' references 'cads', and 'cads' does not
reach back to 'cads_std'. -/
theorem c2_witness :
    ¬ Relation.ReflTransGen (edgeG (generate_dask_graph tConcrete mConcrete eConcrete))
      "cads" "cads_std" := by
  refine c2_graph_well_formed.2 tConcrete mConcrete eConcrete "cads_std" "cads" ?_
  exact ⟨"np.std", [Arg.ref "cads"], by decide, by decide⟩

/-- C3: laziness.  For every semantics, graph and requested set, every
node whose operation is invoked during evaluation lies in the
dependency closure of some requested name; in particular, requesting
only 'n_epochs' never invokes the operation of '_lomb_model'. -/
theorem c3_laziness :
    (∀ (sem : Sem) (g : Graph) (req : List String) (j : String),
        j ∈ (finalState sem g req).trace → ∃ k ∈ req, Reach g k j) ∧
    "_lomb_model" ∉ (finalState semOk graphConcrete ["n_epochs"]).trace := by
  exact ⟨fun sem g req j hj => finalState_trace_reach sem g req j hj, by decide⟩

/-- Witness for C3: applying the laziness theorem to the invoked node
'n_epochs' of the concrete single-leaf request. -/
theorem c3_witness :
    ∃ k ∈ ["n_epochs"], Reach graphConcrete k "n_epochs" :=
  c3_laziness.1 semOk graphConcrete ["n_epochs"] "n_epochs" (by decide)

/-- C4: memoization.  For every semantics, graph and requested set,
each node's operation is invoked at most once per evaluation (the
invocation trace has no duplicates); and when all outputs of the
'lomb_scargle' category are requested together, the shared
'_lomb_model' operation is invoked exactly once. -/
theorem c4_memoization :
    (∀ (sem : Sem) (g : Graph) (req : List String),
        (finalState sem g req).trace.Nodup) ∧
    (finalState semOk graphConcrete LOMB_SCARGLE_FEATS).trace.count "_lomb_model" = 1 := by
  exact ⟨fun sem g req => finalState_nodup sem g req, by decide⟩

/-- C5: failure containment.  In general, a node recorded as a
propagated failure never has its own operation invoked; concretely,
when the '_lomb_model' operation fails, every requested lomb_scargle
output is reported as a propagated failure wrapping the originating
error, the sibling output 'mean' (whose closure is disjoint from the
failed node) still returns its successful value in the same mapping,
and the only operations invoked are 'mean' and '_lomb_model' itself. -/
theorem c5_failure_containment :
    (∀ (sem : Sem) (g : Graph) (req : List String) (k e2 : String),
        lookupC (finalState sem g req).cache k = some (.propagated e2) →
        k ∉ (finalState sem g req).trace) ∧
    evaluate semLombFail graphConcrete (LOMB_SCARGLE_FEATS ++ ["mean"]) =
      (LOMB_SCARGLE_FEATS.map (fun k => (k, NodeResult.propagated "singular fit")) ++
        [("mean", NodeResult.done (.num 0))]) ∧
    (finalState semLombFail graphConcrete (LOMB_SCARGLE_FEATS ++ ["mean"])).trace =
      ["mean", "_lomb_model"] := by
  exact ⟨fun sem g req k e2 h => finalState_propagated_not_invoked sem g req k e2 h,
    by decide, by decide⟩

/-- Witness for C5: 'freq1_freq' is cached as a propagated failure in
the concrete failing evaluation, so its operation was never invoked. -/
theorem c5_witness :
    "freq1_freq" ∉
      (finalState semLombFail graphConcrete (LOMB_SCARGLE_FEATS ++ ["mean"])).trace :=
  c5_failure_containment.1 semLombFail graphConcrete (LOMB_SCARGLE_FEATS ++ ["mean"])
    "freq1_freq" "singular fit" (by decide)

/-- C6: category expansion.  For every selector list in which each
selector is a registered output name or category tag, `expandSel`
returns the concatenation of each selector's expansion (a category tag
expanding to its declared list in declared order, a concrete name to
itself) with duplicates removed preserving first occurrence; and for
any list containing an unregistered selector it fails with an
unknown-selector error. -/
theorem c6_category_expansion :
    (∀ (sels : List String), (∀ s ∈ sels, isRegistered s = true) →
        expandSel sels = .ok (dedupFirst ((sels.map expansionOf).flatten))) ∧
    (∀ (sels : List String) (s : String), s ∈ sels → isRegistered s = false →
        ∃ msg, expandSel sels = .error msg) := by
  constructor
  · intro sels h
    unfold expandSel
    rw [expandList_ok sels h]
    rfl
  · intro sels s hs hreg
    obtain ⟨msg, hmsg⟩ := expandList_err sels s hs hreg
    refine ⟨msg, ?_⟩
    unfold expandSel
    rw [hmsg]
    rfl

/-- Witness for C6: a registered selector list (with a duplicate)
expands successfully, and the unregistered selector "bogus" fails. -/
theorem c6_witness :
    expandSel ["general", "mean", "general"] =
      .ok (dedupFirst (((["general", "mean", "general"]).map expansionOf).flatten)) ∧
    ∃ msg, expandSel ["bogus"] = .error msg :=
  ⟨c6_category_expansion.1 _ (by decide),
    c6_category_expansion.2 _ "bogus" (by decide) (by decide)⟩

/-- C7: round trip.  Expanding every category yields exactly the
concatenation of the three declared category lists; evaluating that
full output set returns a mapping whose key list is exactly that list
of declared public output names; and no internal node name (a graph
key outside the category lists) appears among the keys of the
result. -/
theorem c7_round_trip :
    expandSel ["cadence", "general", "lomb_scargle"] = .ok allFeats ∧
    (evaluate semOk graphConcrete allFeats).map Prod.fst = allFeats ∧
    ((dask_feature_graph.map Prod.fst).filter (fun k => ! allFeats.contains k)).all
      (fun k => ! ((evaluate semOk graphConcrete allFeats).map Prod.fst).contains k)
      = true := by
  refine ⟨by decide, evaluate_keys semOk graphConcrete allFeats, ?_⟩
  rw [evaluate_keys semOk graphConcrete allFeats]
  decide

/-- C8: idempotence and determinism.  For every semantics, raw inputs
and requested set: evaluation leaves the shared graph definition
unmodified (the state's graph after evaluation is the one built by
`generate_dask_graph`); re-running the evaluation over the terminal
state changes nothing; and re-evaluating the same instance for the
same requested set yields the identical result mapping. -/
theorem c8_idempotence_determinism :
    ∀ (sem : Sem) (t m e : Value) (req : List String),
      (finalState sem (generate_dask_graph t m e) req).graph = generate_dask_graph t m e ∧
      evalKeys sem ((generate_dask_graph t m e).length + 1) req
          (finalState sem (generate_dask_graph t m e) req) =
        finalState sem (generate_dask_graph t m e) req ∧
      evaluate sem (generate_dask_graph t m e) req =
        evaluate sem (generate_dask_graph t m e) req := by
  intro sem t m e req
  exact ⟨finalState_graph _ _ _, finalState_idem _ _ _, rfl⟩

/-- C9: serialization normalization.  The node
'all_times_hist_peak_bin' is the unique node of the graph definition
whose operation performs the `int()` cast (the line-139 lambda); its
task is exactly that cast applied to 'delta_t_hist'; and on every
nonempty array that operation returns a native integer value (the
argmax index coerced with `int()`). -/
theorem c9_serialization_cast :
    ((dask_feature_graph.filter (fun p => taskUsesIntCast p.2)).map Prod.fst) =
      ["all_times_hist_peak_bin"] ∧
    lookupG dask_feature_graph "all_times_hist_peak_bin" =
      some (.task "int_np_argmax" [.ref "delta_t_hist"]) ∧
    (∀ (l : List ℚ), l ≠ [] → ∃ n : ℕ, semCesium "int_np_argmax" [.arr l] = .ok (.int n)) := by
  refine ⟨by decide, by decide, ?_⟩
  intro l hl
  match l with
  | [] => exact absurd rfl hl
  | x :: xs => exact ⟨argmaxGo xs x 0 1, rfl⟩

/-- Witness for C9: the cast operation on a concrete nonempty array
returns a native integer. -/
theorem c9_witness :
    ∃ n : ℕ, semCesium "int_np_argmax" [.arr [1, 3, 2]] = .ok (.int n) :=
  c9_serialization_cast.2.2 [1, 3, 2] (by decide)

/-- C10: the dependency-only internal nodes of the static graph are
exactly the ten names of `internalNodeNames` (in graph order): besides
the four '_'-prefixed nodes, the six unprefixed nodes 'cads',
'double_to_single_step', 'delta_t_hist', 'delta_t_nhist',
'nhist_peaks' and 'qso_model' appear in no category list; none of
those six carries the reserved '_' prefix; and every one of the ten is
referenced as a dependency by some node of the graph. -/
theorem c10_internal_nodes :
    ((dask_feature_graph.map Prod.fst).filter (fun k => ! allFeats.contains k)) =
      internalNodeNames ∧
    (internalNodeNames.take 6).all (fun k => k.toList.head? != some '_') = true ∧
    (internalNodeNames.drop 6).all (fun k => k.toList.head? == some '_') = true ∧
    internalNodeNames.all
      (fun k => dask_feature_graph.any (fun p => (depsOf p.2).contains k)) = true := by
  exact ⟨by decide, by decide, by decide, by decide⟩
